import Mathlib

set_option maxHeartbeats 1000000

/-!
Shallow embedding of `calculateSteamMarketTotal` from `src/utils/steam-api.ts`.

The function paginates over `https://steamcommunity.com/market/myhistory`
(500 items per request), parses each page's `results_html` fragment into
market listing rows, classifies each row as a sale or purchase from the
gain/loss indicator text, accumulates totals, and returns them rounded to
two decimals.

Modelling decisions:
* JS numbers are modelled by `ℚ`; `toFixed(2)` followed by `parseFloat`
  is modelled by half-up rounding to two decimals (`round2`).
* The DOM boundary: a page's `results_html` value is modelled as
  `Option (List Row)` where `none` stands for a JS-falsy value (field
  absent, `null`, or the empty string) and `some rows` stands for a
  non-empty HTML string whose `.market_listing_row` elements carry the
  given sub-element texts.  A `Row` field `none` models a missing
  sub-element (or `null` textContent).
* The sequence of HTTP responses a run would see is passed in as a list
  (the transcript); running out of transcript while the loop still wants
  a page yields the marker outcome `RunResult.incomplete`.
* Fetch offsets and `delay(3000)` invocations are recorded in a `RunLog`.
-/

/-- The `'sale' | 'purchase'` union type of the source's `MarketItem.type`. -/
inductive TxType where
  | sale
  | purchase
deriving DecidableEq

/-- `MarketItem` (steam-api.ts lines 15-19). -/
structure MarketItem where
  name : String
  price : ℚ
  type : TxType
deriving DecidableEq

/-- `MarketTotalResult` (steam-api.ts lines 22-28). -/
structure MarketTotalResult where
  total : ℚ
  sales : ℚ
  purchases : ℚ
  currency : String
  items : List MarketItem
deriving DecidableEq

/-- One `.market_listing_row`: the trimmed-later textContents of the
`.market_listing_gainorloss`, `.market_listing_price` and
`.market_listing_item_name` sub-elements; `none` = element missing. -/
structure Row where
  gainOrLoss : Option String
  price : Option String
  name : Option String
deriving DecidableEq

/-- The JSON envelope of one page: `{ total_count, results_html }`. -/
structure PageData where
  total_count : Option Nat
  results_html : Option (List Row)
deriving DecidableEq

/-- One HTTP response: `response.ok`, `response.status`, and the JSON body. -/
structure PageResponse where
  ok : Bool
  status : Nat
  data : PageData
deriving DecidableEq

/-- JS `String.prototype.trim()`: strip whitespace from both ends. -/
def jsTrim (s : String) : String :=
  ⟨((s.data.dropWhile Char.isWhitespace).reverse.dropWhile Char.isWhitespace).reverse⟩

/-- JS `String.prototype.includes(c)` for a single-character needle. -/
def jsIncludes (s : String) (c : Char) : Bool :=
  s.data.contains c

/-- The character class `[A-Z$£€¥]` of the price regex (line 136). -/
def isCurrencyChar (c : Char) : Bool :=
  (decide ('A' ≤ c) && decide (c ≤ 'Z')) || c == '$' || c == '£' || c == '€' || c == '¥'

/-- The character class `[0-9.,]` of the price regex (line 136). -/
def isNumChar (c : Char) : Bool :=
  c.isDigit || c == '.' || c == ','

/-- Try to match `([A-Z$£€¥]*)[\s]*([0-9.,]+)` at the head of the input.
The three character classes are pairwise disjoint, so greedy matching
without backtracking is exact. -/
def priceMatchAt (l : List Char) : Option (String × String) :=
  let sym := l.takeWhile isCurrencyChar
  let r1 := (l.dropWhile isCurrencyChar).dropWhile Char.isWhitespace
  let num := r1.takeWhile isNumChar
  if num.isEmpty then none else some (⟨sym⟩, ⟨num⟩)

/-- Leftmost match of the price regex: try each start position in order,
as JS `String.prototype.match` does for an unanchored pattern. -/
def priceScan : List Char → Option (String × String)
  | [] => none
  | c :: cs =>
    match priceMatchAt (c :: cs) with
    | some r => some r
    | none => priceScan cs

/-- `priceText.match(/([A-Z$£€¥]*)[\s]*([0-9.,]+)/)` (line 136), returning
the two capture groups. -/
def priceMatch (s : String) : Option (String × String) :=
  priceScan s.data

/-- JS `String.prototype.replace(',', '.')`: replace the first comma only. -/
def replaceFirstComma : List Char → List Char
  | [] => []
  | c :: cs => if c == ',' then '.' :: cs else c :: replaceFirstComma cs

/-- Value of a digit string. -/
def digitsVal (l : List Char) : Nat :=
  l.foldl (fun a c => 10 * a + (c.toNat - '0'.toNat)) 0

/-- JS `parseFloat` restricted to the alphabet `[0-9.,]` that the second
capture group (after the comma replacement) can contain: parse the longest
prefix `digits* ('.' digits*)?`; `none` (NaN) when it holds no digit. -/
def parseFloatQ (l : List Char) : Option ℚ :=
  let ip := l.takeWhile Char.isDigit
  let rest := l.dropWhile Char.isDigit
  match rest with
  | '.' :: rest2 =>
    let fp := rest2.takeWhile Char.isDigit
    if ip.isEmpty && fp.isEmpty then none
    else some ((digitsVal ip : ℚ) + (digitsVal fp : ℚ) / ((10 : ℚ) ^ fp.length))
  | _ => if ip.isEmpty then none else some ((digitsVal ip : ℚ))

/-- `parseFloat(x.toFixed(2))` (lines 202-204): round half-up to 2 digits. -/
def round2 (q : ℚ) : ℚ :=
  ((⌊q * 100 + 1 / 2⌋ : ℤ) : ℚ) / 100

/-- Item-name extraction (lines 150-154): trimmed text of the name
sub-element, with the `'Unknown Item'` sentinel for a missing element or
an empty (falsy) text. -/
def itemNameOf (row : Row) : String :=
  match row.name with
  | some n => if jsTrim n = "" then "Unknown Item" else jsTrim n
  | none => "Unknown Item"

/-- The mutable locals of `calculateSteamMarketTotal` (lines 31-35). -/
structure RunState where
  items : List MarketItem
  total : ℚ
  salesTotal : ℚ
  purchasesTotal : ℚ
  currency : String
deriving DecidableEq

/-- The body of the row loop (lines 119-177) for one row. -/
def processRow (st : RunState) (row : Row) : RunState :=
  match row.gainOrLoss, row.price with
  | some gRaw, some pRaw =>
    if jsTrim gRaw = "" ∨ jsTrim pRaw = "" then st
    else
      match priceMatch (jsTrim pRaw) with
      | none => st
      | some (sym, num) =>
        match parseFloatQ (replaceFirstComma num.data) with
        | none =>
          { st with currency := if st.currency = "" ∧ sym ≠ "" then sym else st.currency }
        | some v =>
          { items := st.items ++
              [⟨itemNameOf row, v,
                if jsIncludes (jsTrim gRaw) '-' then TxType.sale else TxType.purchase⟩]
            total := st.total + v
            salesTotal :=
              if jsIncludes (jsTrim gRaw) '-' then st.salesTotal + v else st.salesTotal
            purchasesTotal :=
              if jsIncludes (jsTrim gRaw) '-' then st.purchasesTotal
              else if jsIncludes (jsTrim gRaw) '+' then st.purchasesTotal + v
              else st.purchasesTotal
            currency := if st.currency = "" ∧ sym ≠ "" then sym else st.currency }
  | _, _ => st

/-- Instrumentation of the paging loop: the offsets fetched (the `start`
query parameter of each issued request) and how many times `delay(3000)`
ran. -/
structure RunLog where
  offsets : List Nat
  delays : Nat
deriving DecidableEq

/-- Outcome of one run: the returned result, a thrown HTTP error carrying
the status (line 87), or exhaustion of the supplied response transcript. -/
inductive RunResult where
  | success (res : MarketTotalResult)
  | failure (status : Nat)
  | incomplete
deriving DecidableEq

/-- The returned record (lines 201-207): every total passed through
`toFixed(2)` and re-parsed. -/
def finalize (st : RunState) : MarketTotalResult :=
  { total := round2 st.total
    sales := round2 st.salesTotal
    purchases := round2 st.purchasesTotal
    currency := st.currency
    items := st.items }

/-- The first-page capture of `total_count` (lines 95-99): taken only while
the local is still `0` and the payload value is truthy (present, nonzero). -/
def nextTotalCount (totalCount : Nat) (pd : PageData) : Nat :=
  match pd.total_count with
  | some n => if totalCount = 0 ∧ n ≠ 0 then n else totalCount
  | none => totalCount

/-- The `while (hasMoreItems)` loop (lines 71-198), consuming one response
from the transcript per iteration.  A non-ok response throws (line 87); a
falsy `results_html` breaks out to the return statement (line 105); after
processing the rows, `start += 500` and the loop ends once
`start >= totalCount` (lines 183-197), else one `delay` runs. -/
def runLoop : List PageResponse → Nat → Nat → RunState → RunLog → RunLog × RunResult
  | [], _, _, _, log => (log, RunResult.incomplete)
  | resp :: rest, start, totalCount, st, log =>
    if resp.ok = true then
      match resp.data.results_html with
      | none =>
        ({ offsets := log.offsets ++ [start], delays := log.delays },
         RunResult.success (finalize st))
      | some rows =>
        if start + 500 ≥ nextTotalCount totalCount resp.data then
          ({ offsets := log.offsets ++ [start], delays := log.delays },
           RunResult.success (finalize (rows.foldl processRow st)))
        else
          runLoop rest (start + 500) (nextTotalCount totalCount resp.data)
            (rows.foldl processRow st)
            { offsets := log.offsets ++ [start], delays := log.delays + 1 }
    else
      ({ offsets := log.offsets ++ [start], delays := log.delays },
       RunResult.failure resp.status)

/-- Initial values of the locals (lines 31-35, 54, 59). -/
def initState : RunState :=
  { items := [], total := 0, salesTotal := 0, purchasesTotal := 0, currency := "" }

/-- Empty instrumentation log. -/
def initLog : RunLog :=
  { offsets := [], delays := 0 }

/-- `calculateSteamMarketTotal`, as a function of the response transcript. -/
def calculateSteamMarketTotal (pages : List PageResponse) : RunLog × RunResult :=
  runLoop pages 0 0 initState initLog

/-! ### Spec-side descriptions of the run

The definitions below restate, in the spec's vocabulary, which rows a run
processes and what each row contributes.  They mirror the path conditions
of `processRow` and the control flow of `runLoop` and are used to state
the refinement-style properties (first-wins currency, end-of-run rounding,
sum identities). -/

/-- The currency symbol a row's price text yields to the regex capture
(line 139): defined for exactly the rows that reach the `match` test,
including rows later dropped because the numeric part parses to NaN. -/
def rowSymbol (row : Row) : Option String :=
  match row.gainOrLoss, row.price with
  | some gRaw, some pRaw =>
    if jsTrim gRaw = "" ∨ jsTrim pRaw = "" then none
    else
      match priceMatch (jsTrim pRaw) with
      | none => none
      | some (sym, _) => some sym
  | _, _ => none

/-- For a row that reaches accumulation (lines 148-175): its parsed amount
and its two indicator flags `isSale` (contains a minus marker) and
`isPurchase` (contains a plus marker); `none` for a dropped row. -/
def rowAccepted (row : Row) : Option (ℚ × Bool × Bool) :=
  match row.gainOrLoss, row.price with
  | some gRaw, some pRaw =>
    if jsTrim gRaw = "" ∨ jsTrim pRaw = "" then none
    else
      match priceMatch (jsTrim pRaw) with
      | none => none
      | some (_, num) =>
        match parseFloatQ (replaceFirstComma num.data) with
        | none => none
        | some v => some (v, jsIncludes (jsTrim gRaw) '-', jsIncludes (jsTrim gRaw) '+')
  | _, _ => none

/-- The document-order stream of rows the run processes: all rows of every
page the loop consumes, following the same control flow as `runLoop`
(stop on a non-ok response, on a falsy `results_html`, or once
`start + 500 ≥ totalCount`). -/
def processedRows : List PageResponse → Nat → Nat → List Row
  | [], _, _ => []
  | resp :: rest, start, totalCount =>
    if resp.ok = true then
      match resp.data.results_html with
      | none => []
      | some rows =>
        if start + 500 ≥ nextTotalCount totalCount resp.data then rows
        else rows ++ processedRows rest (start + 500) (nextTotalCount totalCount resp.data)
    else []

/-- All currency symbols captured by the price regex, in document order. -/
def capturedSymbols (rows : List Row) : List String :=
  rows.filterMap rowSymbol

/-- The first non-empty string of a list, or `""` if there is none. -/
def firstNonEmpty (l : List String) : String :=
  (l.filter (fun s => s ≠ "")).headD ""

/-- The accepted rows' contributions, in document order. -/
def acceptedOf (rows : List Row) : List (ℚ × Bool × Bool) :=
  rows.filterMap rowAccepted

/-- Exact (unrounded) sum of all accepted amounts. -/
def grandOf (rows : List Row) : ℚ :=
  ((acceptedOf rows).map (fun t => t.1)).sum

/-- Exact sum of the amounts of rows whose indicator contains a minus. -/
def salesOf (rows : List Row) : ℚ :=
  (((acceptedOf rows).filter (fun t => t.2.1)).map (fun t => t.1)).sum

/-- Exact sum of the amounts of rows with a plus and no minus marker. -/
def purchasesOf (rows : List Row) : ℚ :=
  (((acceptedOf rows).filter (fun t => !t.2.1 && t.2.2)).map (fun t => t.1)).sum

/-- A row is unproblematic for the sum identity when, if accepted, its
indicator carries at least one of the two markers. -/
def rowMarkedOK (row : Row) : Bool :=
  match rowAccepted row with
  | some t => t.2.1 || t.2.2
  | none => true

/-- The offsets `s, s + 500, s + 1000, ...` of `j` consecutive fetches. -/
def offsetsFrom : Nat → Nat → List Nat
  | 0, _ => []
  | j + 1, s => s :: offsetsFrom j (s + 500)

/-! ### Per-row accounting lemmas -/

/-- Contribution of one row to the grand total accumulator. -/
def deltaTotal (row : Row) : ℚ :=
  match rowAccepted row with
  | some t => t.1
  | none => 0

/-- Contribution of one row to the sales accumulator. -/
def deltaSales (row : Row) : ℚ :=
  match rowAccepted row with
  | some t => if t.2.1 then t.1 else 0
  | none => 0

/-- Contribution of one row to the purchases accumulator. -/
def deltaPurch (row : Row) : ℚ :=
  match rowAccepted row with
  | some t => if !t.2.1 && t.2.2 then t.1 else 0
  | none => 0

lemma processRow_total (st : RunState) (row : Row) :
    (processRow st row).total = st.total + deltaTotal row := by
  rcases row with ⟨go, pr, nm⟩
  rcases go with _ | g
  · simp [processRow, rowAccepted, deltaTotal]
  rcases pr with _ | p
  · simp [processRow, rowAccepted, deltaTotal]
  by_cases h1 : jsTrim g = "" ∨ jsTrim p = ""
  · simp [processRow, rowAccepted, deltaTotal, h1]
  rcases hm : priceMatch (jsTrim p) with _ | ⟨sym, num⟩
  · simp [processRow, rowAccepted, deltaTotal, h1, hm]
  rcases hv : parseFloatQ (replaceFirstComma num.data) with _ | v
  · simp [processRow, rowAccepted, deltaTotal, h1, hm, hv]
  · simp [processRow, rowAccepted, deltaTotal, h1, hm, hv]

lemma processRow_salesTotal (st : RunState) (row : Row) :
    (processRow st row).salesTotal = st.salesTotal + deltaSales row := by
  rcases row with ⟨go, pr, nm⟩
  rcases go with _ | g
  · simp [processRow, rowAccepted, deltaSales]
  rcases pr with _ | p
  · simp [processRow, rowAccepted, deltaSales]
  by_cases h1 : jsTrim g = "" ∨ jsTrim p = ""
  · simp [processRow, rowAccepted, deltaSales, h1]
  rcases hm : priceMatch (jsTrim p) with _ | ⟨sym, num⟩
  · simp [processRow, rowAccepted, deltaSales, h1, hm]
  rcases hv : parseFloatQ (replaceFirstComma num.data) with _ | v
  · simp [processRow, rowAccepted, deltaSales, h1, hm, hv]
  · by_cases hs : jsIncludes (jsTrim g) '-' = true <;>
      simp [processRow, rowAccepted, deltaSales, h1, hm, hv, hs]

lemma processRow_purchasesTotal (st : RunState) (row : Row) :
    (processRow st row).purchasesTotal = st.purchasesTotal + deltaPurch row := by
  rcases row with ⟨go, pr, nm⟩
  rcases go with _ | g
  · simp [processRow, rowAccepted, deltaPurch]
  rcases pr with _ | p
  · simp [processRow, rowAccepted, deltaPurch]
  by_cases h1 : jsTrim g = "" ∨ jsTrim p = ""
  · simp [processRow, rowAccepted, deltaPurch, h1]
  rcases hm : priceMatch (jsTrim p) with _ | ⟨sym, num⟩
  · simp [processRow, rowAccepted, deltaPurch, h1, hm]
  rcases hv : parseFloatQ (replaceFirstComma num.data) with _ | v
  · simp [processRow, rowAccepted, deltaPurch, h1, hm, hv]
  · by_cases hs : jsIncludes (jsTrim g) '-' = true <;>
      by_cases hp : jsIncludes (jsTrim g) '+' = true <;>
      simp [processRow, rowAccepted, deltaPurch, h1, hm, hv, hs, hp]

lemma processRow_currency (st : RunState) (row : Row) :
    (processRow st row).currency =
      match rowSymbol row with
      | some sym => if st.currency = "" ∧ sym ≠ "" then sym else st.currency
      | none => st.currency := by
  rcases row with ⟨go, pr, nm⟩
  rcases go with _ | g
  · simp [processRow, rowSymbol]
  rcases pr with _ | p
  · simp [processRow, rowSymbol]
  by_cases h1 : jsTrim g = "" ∨ jsTrim p = ""
  · simp [processRow, rowSymbol, h1]
  rcases hm : priceMatch (jsTrim p) with _ | ⟨sym, num⟩
  · simp [processRow, rowSymbol, h1, hm]
  rcases hv : parseFloatQ (replaceFirstComma num.data) with _ | v
  · simp [processRow, rowSymbol, h1, hm, hv]
  · simp [processRow, rowSymbol, h1, hm, hv]

/-! ### Fold-level accounting lemmas -/

lemma grandOf_cons (row : Row) (rows : List Row) :
    grandOf (row :: rows) = deltaTotal row + grandOf rows := by
  rcases h : rowAccepted row with _ | t <;>
    simp [grandOf, acceptedOf, deltaTotal, List.filterMap_cons, h]

lemma salesOf_cons (row : Row) (rows : List Row) :
    salesOf (row :: rows) = deltaSales row + salesOf rows := by
  rcases h : rowAccepted row with _ | t
  · simp [salesOf, acceptedOf, deltaSales, List.filterMap_cons, h]
  · by_cases hs : t.2.1 = true <;>
      simp [salesOf, acceptedOf, deltaSales, List.filterMap_cons, List.filter_cons, h, hs]

lemma purchasesOf_cons (row : Row) (rows : List Row) :
    purchasesOf (row :: rows) = deltaPurch row + purchasesOf rows := by
  rcases h : rowAccepted row with _ | t
  · simp [purchasesOf, acceptedOf, deltaPurch, List.filterMap_cons, h]
  · by_cases hs : (!t.2.1 && t.2.2) = true <;>
      simp [purchasesOf, acceptedOf, deltaPurch, List.filterMap_cons, List.filter_cons, h, hs]

lemma foldl_total (rows : List Row) :
    ∀ st : RunState, (rows.foldl processRow st).total = st.total + grandOf rows := by
  induction rows with
  | nil => intro st; simp [grandOf, acceptedOf]
  | cons r rows ih =>
    intro st
    rw [List.foldl_cons, ih, processRow_total, grandOf_cons]
    ring

lemma foldl_salesTotal (rows : List Row) :
    ∀ st : RunState, (rows.foldl processRow st).salesTotal = st.salesTotal + salesOf rows := by
  induction rows with
  | nil => intro st; simp [salesOf, acceptedOf]
  | cons r rows ih =>
    intro st
    rw [List.foldl_cons, ih, processRow_salesTotal, salesOf_cons]
    ring

lemma foldl_purchasesTotal (rows : List Row) :
    ∀ st : RunState,
      (rows.foldl processRow st).purchasesTotal = st.purchasesTotal + purchasesOf rows := by
  induction rows with
  | nil => intro st; simp [purchasesOf, acceptedOf]
  | cons r rows ih =>
    intro st
    rw [List.foldl_cons, ih, processRow_purchasesTotal, purchasesOf_cons]
    ring

lemma firstNonEmpty_cons (s : String) (l : List String) :
    firstNonEmpty (s :: l) = if s = "" then firstNonEmpty l else s := by
  by_cases hs : s = "" <;> simp [firstNonEmpty, List.filter_cons, hs]

lemma foldl_currency (rows : List Row) :
    ∀ st : RunState,
      (rows.foldl processRow st).currency =
        if st.currency = "" then firstNonEmpty (capturedSymbols rows) else st.currency := by
  induction rows with
  | nil =>
    intro st
    by_cases h : st.currency = "" <;> simp [capturedSymbols, firstNonEmpty, h]
  | cons r rows ih =>
    intro st
    rw [List.foldl_cons, ih, processRow_currency]
    rcases hs : rowSymbol r with _ | sym
    · simp [capturedSymbols, List.filterMap_cons, hs]
    · by_cases hc : st.currency = ""
      · by_cases hsym : sym = "" <;>
          simp [capturedSymbols, List.filterMap_cons, hs, hc, hsym, firstNonEmpty_cons]
      · simp [capturedSymbols, List.filterMap_cons, hs, hc]

/-! ### The master shape of a successful run -/

lemma runLoop_success_eq :
    ∀ (pages : List PageResponse) (start tc : Nat) (st : RunState) (log log' : RunLog)
      (res : MarketTotalResult),
      runLoop pages start tc st log = (log', RunResult.success res) →
      res = finalize ((processedRows pages start tc).foldl processRow st)
  | [], start, tc, st, log, log', res => by
    intro h
    simp [runLoop] at h
  | resp :: rest, start, tc, st, log, log', res => by
    intro h
    by_cases hok : resp.ok = true
    · rcases hres : resp.data.results_html with _ | rows
      · simp only [runLoop, hok, if_true, hres, Prod.mk.injEq, RunResult.success.injEq] at h
        obtain ⟨-, h2⟩ := h
        subst h2
        simp [processedRows, hok, hres]
      · by_cases hterm : start + 500 ≥ nextTotalCount tc resp.data
        · simp only [runLoop, hok, if_true, hres] at h
          rw [if_pos hterm] at h
          simp only [Prod.mk.injEq, RunResult.success.injEq] at h
          obtain ⟨-, h2⟩ := h
          subst h2
          simp [processedRows, hok, hres, hterm]
        · simp only [runLoop, hok, if_true, hres] at h
          rw [if_neg hterm] at h
          have ih := runLoop_success_eq rest (start + 500) (nextTotalCount tc resp.data)
            (rows.foldl processRow st)
            { offsets := log.offsets ++ [start], delays := log.delays + 1 } log' res h
          rw [ih]
          simp [processedRows, hok, hres, hterm, List.foldl_append]
    · simp only [runLoop, hok] at h
      simp at h

/-! ### Rounding and sum identities -/

lemma round2_add_bound (a b : ℚ) :
    |round2 (a + b) - (round2 a + round2 b)| ≤ 1 / 100 := by
  unfold round2
  set A : ℤ := ⌊a * 100 + 1 / 2⌋ with hA
  set B : ℤ := ⌊b * 100 + 1 / 2⌋ with hB
  set C : ℤ := ⌊(a + b) * 100 + 1 / 2⌋ with hC
  have hA1 : (A : ℚ) ≤ a * 100 + 1 / 2 := Int.floor_le _
  have hA2 : a * 100 + 1 / 2 < (A : ℚ) + 1 := Int.lt_floor_add_one _
  have hB1 : (B : ℚ) ≤ b * 100 + 1 / 2 := Int.floor_le _
  have hB2 : b * 100 + 1 / 2 < (B : ℚ) + 1 := Int.lt_floor_add_one _
  have hC1 : (C : ℚ) ≤ (a + b) * 100 + 1 / 2 := Int.floor_le _
  have hC2 : (a + b) * 100 + 1 / 2 < (C : ℚ) + 1 := Int.lt_floor_add_one _
  have h3 : A + B - C ≤ 1 := by
    by_contra hcon
    push_neg at hcon
    have h5 : 2 ≤ A + B - C := hcon
    have : ((2 : ℤ) : ℚ) ≤ ((A + B - C : ℤ) : ℚ) := by exact_mod_cast h5
    push_cast at this
    linarith
  have h4 : -1 ≤ A + B - C := by
    by_contra hcon
    push_neg at hcon
    have h5 : A + B - C ≤ -2 := by omega
    have : ((A + B - C : ℤ) : ℚ) ≤ ((-2 : ℤ) : ℚ) := by exact_mod_cast h5
    push_cast at this
    linarith
  have c3 : ((A : ℚ) + B - C) ≤ 1 := by exact_mod_cast h3
  have c4 : (-1 : ℚ) ≤ ((A : ℚ) + B - C) := by exact_mod_cast h4
  rw [abs_le]
  constructor <;> linarith

lemma grandOf_eq_sales_add_purchases (rows : List Row) :
    (∀ row ∈ rows, rowMarkedOK row = true) →
    grandOf rows = salesOf rows + purchasesOf rows := by
  induction rows with
  | nil => intro hmk; simp [grandOf, salesOf, purchasesOf, acceptedOf]
  | cons r rows ih =>
    intro hmk
    have hr := hmk r (List.mem_cons_self r rows)
    have hrest : ∀ row ∈ rows, rowMarkedOK row = true :=
      fun row hrow => hmk row (List.mem_cons_of_mem r hrow)
    rw [grandOf_cons, salesOf_cons, purchasesOf_cons, ih hrest]
    rcases h : rowAccepted r with _ | t
    · simp [deltaTotal, deltaSales, deltaPurch, h]
    · obtain ⟨v, sFlag, pFlag⟩ := t
      simp only [rowMarkedOK, h] at hr
      rcases sFlag <;> rcases pFlag <;>
        simp_all [deltaTotal, deltaSales, deltaPurch, h] <;> ring

/-! ### Pagination counting -/

lemma nextTotalCount_of_ne_zero (tc : Nat) (pd : PageData) (h : tc ≠ 0) :
    nextTotalCount tc pd = tc := by
  rcases pd with ⟨tcf, rh⟩
  rcases tcf with _ | n <;> simp [nextTotalCount, h]

lemma runLoop_paginate :
    ∀ (pages : List PageResponse) (j start tc : Nat) (st : RunState) (log : RunLog),
      0 < tc → start < tc → j = (tc - start + 499) / 500 → j ≤ pages.length →
      (∀ p ∈ pages.take j, p.ok = true ∧ p.data.results_html ≠ none) →
      ∃ res, runLoop pages start tc st log =
        ({ offsets := log.offsets ++ offsetsFrom j start, delays := log.delays + (j - 1) },
         RunResult.success res) := by
  intro pages
  induction pages with
  | nil =>
    intro j start tc st log htc hlt hj hlen hgood
    simp only [List.length_nil, Nat.le_zero] at hlen
    omega
  | cons p rest ih =>
    intro j start tc st log htc hlt hj hlen hgood
    obtain ⟨i, rfl⟩ : ∃ i, j = i + 1 := ⟨j - 1, by omega⟩
    obtain ⟨hok, hres⟩ := hgood p (by simp [List.take_succ_cons])
    rcases hrows : p.data.results_html with _ | rows
    · exact absurd hrows hres
    have hnext : nextTotalCount tc p.data = tc := nextTotalCount_of_ne_zero tc p.data (by omega)
    by_cases hterm : start + 500 ≥ nextTotalCount tc p.data
    · have hi : i = 0 := by rw [hnext] at hterm; omega
      subst hi
      refine ⟨finalize (rows.foldl processRow st), ?_⟩
      simp only [runLoop, hok, if_true, hrows]
      rw [if_pos hterm]
      simp [offsetsFrom]
    · rw [hnext] at hterm
      have hlt2 : start + 500 < tc := by omega
      have hi1 : 1 ≤ i := by omega
      obtain ⟨res, hrec⟩ := ih i (start + 500) tc (rows.foldl processRow st)
        { offsets := log.offsets ++ [start], delays := log.delays + 1 }
        htc hlt2 (by omega) (by simpa using hlen)
        (fun q hq => hgood q (by simp only [List.take_succ_cons]; exact List.mem_cons_of_mem p hq))
      refine ⟨res, ?_⟩
      simp only [runLoop, hok, if_true, hrows]
      rw [if_neg (by rw [hnext]; omega), hnext, hrec]
      simp only [Prod.mk.injEq, RunLog.mk.injEq]
      refine ⟨⟨?_, by omega⟩, trivial⟩
      rw [List.append_assoc]
      simp [offsetsFrom]

lemma offsetsFrom_eq_range :
    ∀ (j s : Nat), offsetsFrom j s = (List.range j).map (fun i => i * 500 + s) := by
  intro j
  induction j with
  | zero => intro s; simp [offsetsFrom]
  | succ j ih =>
    intro s
    rw [offsetsFrom, ih (s + 500), List.range_succ_eq_map]
    simp only [List.map_cons, List.map_map, Nat.zero_mul, Nat.zero_add]
    refine congrArg (List.cons s) ?_
    refine List.map_congr_left ?_
    intro i hi
    simp only [Function.comp_apply, Nat.succ_mul]
    omega

lemma range_map_mul500_succ (i : Nat) :
    (List.range (i + 1)).map (fun t => t * 500) =
      0 :: (List.range i).map (fun t => t * 500 + 500) := by
  rw [List.range_succ_eq_map]
  simp only [List.map_cons, List.map_map, Nat.zero_mul]
  refine congrArg (List.cons 0) ?_
  refine List.map_congr_left ?_
  intro t ht
  simp only [Function.comp_apply, Nat.succ_mul]

lemma firstNonEmpty_all_empty (l : List String) (h : ∀ s ∈ l, s = "") :
    firstNonEmpty l = "" := by
  induction l with
  | nil => simp [firstNonEmpty]
  | cons a l ih =>
    rw [firstNonEmpty_cons]
    have ha := h a (List.mem_cons_self a l)
    simp [ha, ih (fun s hs => h s (List.mem_cons_of_mem a hs))]

/-! ### The claims -/

/-- C4: for every run that returns a result, the currency field equals the
first non-empty currency symbol captured across all processed pages in
document order; once set it is never overwritten by a later symbol. -/
theorem currency_first_wins (pages : List PageResponse) (log : RunLog)
    (res : MarketTotalResult)
    (h : calculateSteamMarketTotal pages = (log, RunResult.success res)) :
    res.currency = firstNonEmpty (capturedSymbols (processedRows pages 0 0)) := by
  have hm := runLoop_success_eq pages 0 0 initState initLog log res h
  rw [hm]
  simp [finalize, foldl_currency, initState]

/-- C7: the three returned sums are the half-up 2-digit rounding of the
exact unrounded sums of the accepted rows' amounts — rounding happens once,
at the end of the run, never per row. -/
theorem sums_rounded_once (pages : List PageResponse) (log : RunLog)
    (res : MarketTotalResult)
    (h : calculateSteamMarketTotal pages = (log, RunResult.success res)) :
    res.total = round2 (grandOf (processedRows pages 0 0)) ∧
    res.sales = round2 (salesOf (processedRows pages 0 0)) ∧
    res.purchases = round2 (purchasesOf (processedRows pages 0 0)) := by
  have hm := runLoop_success_eq pages 0 0 initState initLog log res h
  rw [hm]
  refine ⟨?_, ?_, ?_⟩ <;>
    simp [finalize, foldl_total, foldl_salesTotal, foldl_purchasesTotal, initState]

/-- C10: a run in which no processed row yields a non-empty currency symbol
still returns a result, and its currency field is the empty string. -/
theorem no_currency_empty (pages : List PageResponse) (log : RunLog)
    (res : MarketTotalResult)
    (h : calculateSteamMarketTotal pages = (log, RunResult.success res))
    (hall : ∀ s ∈ capturedSymbols (processedRows pages 0 0), s = "") :
    res.currency = "" := by
  have hm := runLoop_success_eq pages 0 0 initState initLog log res h
  rw [hm]
  simp [finalize, foldl_currency, initState, firstNonEmpty_all_empty _ hall]

/-- C1 (amended): for every run that returns a result and in which every
accepted row's indicator carries a minus or a plus marker, the grand total
equals sales plus purchases within the 0.01 rounding tolerance.  (Without
the marker hypothesis the identity fails: an accepted row with neither
marker is added to the grand total but to neither partial sum, see the
counterexample.) -/
theorem totals_identity_of_marked (pages : List PageResponse) (log : RunLog)
    (res : MarketTotalResult)
    (h : calculateSteamMarketTotal pages = (log, RunResult.success res))
    (hmk : ∀ row ∈ processedRows pages 0 0, rowMarkedOK row = true) :
    |res.total - (res.sales + res.purchases)| ≤ 1 / 100 := by
  have hm := runLoop_success_eq pages 0 0 initState initLog log res h
  rw [hm]
  simp only [finalize, foldl_total, foldl_salesTotal, foldl_purchasesTotal, initState,
    zero_add]
  rw [grandOf_eq_sales_add_purchases _ hmk]
  exact round2_add_bound _ _

/-- C2 (amended): whenever the loop, in any reachable configuration,
receives an ok response whose payload lacks `results_html`, it logs the
problem, breaks out of the loop, and returns normally with exactly the
records and totals accumulated so far — no error is propagated, no further
page is fetched, and the partial result is handed to the caller. -/
theorem missing_fragment_returns_partial (resp : PageResponse)
    (rest : List PageResponse) (start tc : Nat) (st : RunState) (log : RunLog)
    (hok : resp.ok = true) (hfrag : resp.data.results_html = none) :
    runLoop (resp :: rest) start tc st log =
      ({ offsets := log.offsets ++ [start], delays := log.delays },
       RunResult.success (finalize st)) := by
  simp [runLoop, hok, hfrag]

/-- C6: a non-ok HTTP response makes the run fail immediately at that page
with the transport error (the thrown HTTP status), with no retry, no
further fetch and no delay, regardless of any later pages. -/
theorem http_error_aborts (resp : PageResponse) (rest : List PageResponse)
    (start tc : Nat) (st : RunState) (log : RunLog)
    (hok : resp.ok = false) :
    runLoop (resp :: rest) start tc st log =
      ({ offsets := log.offsets ++ [start], delays := log.delays },
       RunResult.failure resp.status) := by
  simp [runLoop, hok]

/-- C8 (amended): when the first page's payload lacks `total_count`, the
loop fetches and processes page 1 and then terminates immediately after it
(`500 ≥ 0` holds for the never-updated zero total count), returning
normally after exactly one fetch and no delay; if `results_html` is also
absent on that page, the returned result carries zero records and zero
totals — no AuthenticationFailure is raised either way. -/
theorem missing_total_count_behavior (p : PageResponse) (rest : List PageResponse)
    (hok : p.ok = true) (htc : p.data.total_count = none) :
    calculateSteamMarketTotal (p :: rest) =
      ({ offsets := [0], delays := 0 },
       RunResult.success (finalize
         (match p.data.results_html with
          | none => initState
          | some rows => rows.foldl processRow initState))) := by
  rcases hres : p.data.results_html with _ | rows <;>
    simp [calculateSteamMarketTotal, runLoop, hok, hres, nextTotalCount, htc, initLog]

/-- C5: a run whose first response carries a positive `total_count = n`,
with enough well-formed pages, issues exactly `⌈n / 500⌉` fetches at
offsets `0, 500, 1000, ...` and runs the fixed inter-page delay exactly
`fetches - 1` times: between consecutive fetches, never after the last. -/
theorem pagination_fetches_and_delays (n k : Nat) (p0 : PageResponse)
    (rest : List PageResponse)
    (hn : 0 < n) (hk : k = (n + 499) / 500)
    (htc : p0.data.total_count = some n)
    (hlen : k ≤ (p0 :: rest).length)
    (hgood : ∀ p ∈ (p0 :: rest).take k, p.ok = true ∧ p.data.results_html ≠ none) :
    ∃ res, calculateSteamMarketTotal (p0 :: rest) =
      ({ offsets := (List.range k).map (fun t => t * 500), delays := k - 1 },
       RunResult.success res) := by
  obtain ⟨i, rfl⟩ : ∃ i, k = i + 1 := ⟨k - 1, by omega⟩
  obtain ⟨hok, hres⟩ := hgood p0 (by simp [List.take_succ_cons])
  rcases hrows : p0.data.results_html with _ | rows
  · exact absurd hrows hres
  have hn' : n ≠ 0 := by omega
  have hnext : nextTotalCount 0 p0.data = n := by simp [nextTotalCount, htc, hn']
  unfold calculateSteamMarketTotal
  by_cases hterm : 0 + 500 ≥ n
  · have hi : i = 0 := by omega
    subst hi
    refine ⟨finalize (rows.foldl processRow initState), ?_⟩
    simp only [runLoop, hok, if_true, hrows, hnext]
    rw [if_pos hterm]
    simp [initLog, List.range_succ]
  · have h500 : 500 < n := by omega
    obtain ⟨res, hrec⟩ := runLoop_paginate rest i 500 n (rows.foldl processRow initState)
      { offsets := initLog.offsets ++ [0], delays := initLog.delays + 1 }
      (by omega) (by omega) (by omega) (by simpa using hlen)
      (fun q hq => hgood q (by simp only [List.take_succ_cons]; exact List.mem_cons_of_mem p0 hq))
    refine ⟨res, ?_⟩
    simp only [runLoop, hok, if_true, hrows, hnext]
    rw [if_neg (by omega)]
    have h05 : (0 : Nat) + 500 = 500 := rfl
    rw [h05, hrec]
    simp only [Prod.mk.injEq, RunLog.mk.injEq, initLog]
    refine ⟨⟨?_, by omega⟩, trivial⟩
    rw [offsetsFrom_eq_range, range_map_mul500_succ]
    simp

/-- C3 (amended): a retained row whose indicator text contains neither the
minus nor the plus marker is NOT dropped: it is appended to `items` with
kind purchase and its amount is added to the grand total, while the sales
and purchases sums are left unchanged. -/
theorem unmarked_row_not_dropped (st : RunState) (row : Row)
    (gRaw pRaw sym num : String) (v : ℚ)
    (hg : row.gainOrLoss = some gRaw) (hp : row.price = some pRaw)
    (hgne : jsTrim gRaw ≠ "") (hpne : jsTrim pRaw ≠ "")
    (hnod : jsIncludes (jsTrim gRaw) '-' = false)
    (hnop : jsIncludes (jsTrim gRaw) '+' = false)
    (hm : priceMatch (jsTrim pRaw) = some (sym, num))
    (hv : parseFloatQ (replaceFirstComma num.data) = some v) :
    processRow st row =
      { items := st.items ++ [⟨itemNameOf row, v, TxType.purchase⟩]
        total := st.total + v
        salesTotal := st.salesTotal
        purchasesTotal := st.purchasesTotal
        currency := if st.currency = "" ∧ sym ≠ "" then sym else st.currency } := by
  simp only [processRow, hg, hp]
  rw [if_neg (by simp [hgne, hpne])]
  simp [hm, hv, hnod, hnop]

/-- C9: a retained row whose indicator text contains the minus marker is
classified as a sale even when it also contains the plus marker: the minus
takes precedence, the amount goes to the sales total only, and the record's
kind is sale. -/
theorem both_markers_sale (st : RunState) (row : Row)
    (gRaw pRaw sym num : String) (v : ℚ)
    (hg : row.gainOrLoss = some gRaw) (hp : row.price = some pRaw)
    (hgne : jsTrim gRaw ≠ "") (hpne : jsTrim pRaw ≠ "")
    (hd : jsIncludes (jsTrim gRaw) '-' = true)
    (_hplus : jsIncludes (jsTrim gRaw) '+' = true)
    (hm : priceMatch (jsTrim pRaw) = some (sym, num))
    (hv : parseFloatQ (replaceFirstComma num.data) = some v) :
    processRow st row =
      { items := st.items ++ [⟨itemNameOf row, v, TxType.sale⟩]
        total := st.total + v
        salesTotal := st.salesTotal + v
        purchasesTotal := st.purchasesTotal
        currency := if st.currency = "" ∧ sym ≠ "" then sym else st.currency } := by
  simp only [processRow, hg, hp]
  rw [if_neg (by simp [hgne, hpne])]
  simp [hm, hv, hd]

/-! ### Counterexamples and witnesses -/

/-- C1 counterexample: a successful run with one priced row whose indicator
text "x" contains neither marker returns total 5, sales 0, purchases 0, so
the claimed identity `grandTotal = salesTotal + purchasesTotal` fails by a
margin of 5, far beyond the 0.01 tolerance. -/
theorem totals_identity_cex :
    calculateSteamMarketTotal
        [⟨true, 200, ⟨some 1, some [⟨some "x", some "$5.00", some "ItemX"⟩]⟩⟩] =
      ({ offsets := [0], delays := 0 },
       RunResult.success ⟨5, 0, 0, "$", [⟨"ItemX", 5, TxType.purchase⟩]⟩) ∧
    ¬ (|(5 : ℚ) - (0 + 0)| ≤ 1 / 100) := by
  constructor
  · simp [calculateSteamMarketTotal, runLoop, processRow, priceMatch, priceScan,
      priceMatchAt, parseFloatQ, replaceFirstComma, digitsVal, jsTrim, jsIncludes,
      itemNameOf, round2, finalize, nextTotalCount, initState, initLog,
      isCurrencyChar, isNumChar] <;> norm_num
  · norm_num

/-- Witness for C1 (amended): a run with one sale of 1.00 and one purchase
of 2.50 satisfies the identity within tolerance. -/
theorem totals_identity_of_marked_witness :
    |(MarketTotalResult.mk (7 / 2) 1 (5 / 2) "$"
        [⟨"ItemA", 1, TxType.sale⟩, ⟨"ItemB", 5 / 2, TxType.purchase⟩]).total -
      ((MarketTotalResult.mk (7 / 2) 1 (5 / 2) "$"
        [⟨"ItemA", 1, TxType.sale⟩, ⟨"ItemB", 5 / 2, TxType.purchase⟩]).sales +
       (MarketTotalResult.mk (7 / 2) 1 (5 / 2) "$"
        [⟨"ItemA", 1, TxType.sale⟩, ⟨"ItemB", 5 / 2, TxType.purchase⟩]).purchases)| ≤
      1 / 100 :=
  totals_identity_of_marked
    [⟨true, 200, ⟨some 2, some [⟨some "-", some "$1.00", some "ItemA"⟩,
                                ⟨some "+", some "$2.50", some "ItemB"⟩]⟩⟩]
    ⟨[0], 0⟩ _
    (by simp [calculateSteamMarketTotal, runLoop, processRow, priceMatch, priceScan,
      priceMatchAt, parseFloatQ, replaceFirstComma, digitsVal, jsTrim, jsIncludes,
      itemNameOf, round2, finalize, nextTotalCount, initState, initLog,
      isCurrencyChar, isNumChar] <;> norm_num)
    (by decide)

/-- C2 counterexample: the second page's payload lacks `results_html`, yet
the run does not fail — it returns normally, handing the caller the record
and totals accumulated from the first page (a partial result). -/
theorem missing_fragment_cex :
    calculateSteamMarketTotal
        [⟨true, 200, ⟨some 1000, some [⟨some "-", some "$2.00", some "ItemY"⟩]⟩⟩,
         ⟨true, 200, ⟨none, none⟩⟩] =
      ({ offsets := [0, 500], delays := 1 },
       RunResult.success ⟨2, 2, 0, "$", [⟨"ItemY", 2, TxType.sale⟩]⟩) ∧
    (⟨2, 2, 0, "$", [⟨"ItemY", 2, TxType.sale⟩]⟩ : MarketTotalResult).items ≠ [] := by
  constructor
  · simp [calculateSteamMarketTotal, runLoop, processRow, priceMatch, priceScan,
      priceMatchAt, parseFloatQ, replaceFirstComma, digitsVal, jsTrim, jsIncludes,
      itemNameOf, round2, finalize, nextTotalCount, initState, initLog,
      isCurrencyChar, isNumChar] <;> norm_num
  · simp

/-- Witness for C2 (amended): in a mid-run configuration with one record
already accumulated, an ok response without `results_html` ends the run
with the partial state returned and the remaining page never fetched. -/
theorem missing_fragment_returns_partial_witness :
    runLoop [⟨true, 200, ⟨some 7, none⟩⟩, ⟨false, 500, ⟨none, none⟩⟩] 500 9999
        ⟨[⟨"Prev", 3, TxType.sale⟩], 3, 3, 0, "$"⟩ ⟨[0], 1⟩ =
      (⟨[0, 500], 1⟩,
       RunResult.success (finalize ⟨[⟨"Prev", 3, TxType.sale⟩], 3, 3, 0, "$"⟩)) := by
  have h := missing_fragment_returns_partial ⟨true, 200, ⟨some 7, none⟩⟩
    [⟨false, 500, ⟨none, none⟩⟩] 500 9999
    ⟨[⟨"Prev", 3, TxType.sale⟩], 3, 3, 0, "$"⟩ ⟨[0], 1⟩ rfl rfl
  simpa using h

/-- C3 counterexample: a run whose only row has the markerless indicator
"keep" still appends the row to `items` (as a purchase) and adds its
amount 4 to the grand total — the row is not dropped as claimed. -/
theorem unmarked_row_cex :
    calculateSteamMarketTotal
        [⟨true, 200, ⟨some 1, some [⟨some "keep", some "€4.00", none⟩]⟩⟩] =
      ({ offsets := [0], delays := 0 },
       RunResult.success ⟨4, 0, 0, "€", [⟨"Unknown Item", 4, TxType.purchase⟩]⟩) ∧
    (⟨4, 0, 0, "€", [⟨"Unknown Item", 4, TxType.purchase⟩]⟩ : MarketTotalResult).items ≠ [] ∧
    (⟨4, 0, 0, "€", [⟨"Unknown Item", 4, TxType.purchase⟩]⟩ : MarketTotalResult).total ≠ 0 := by
  refine ⟨?_, by simp, by norm_num⟩
  simp [calculateSteamMarketTotal, runLoop, processRow, priceMatch, priceScan,
    priceMatchAt, parseFloatQ, replaceFirstComma, digitsVal, jsTrim, jsIncludes,
    itemNameOf, round2, finalize, nextTotalCount, initState, initLog,
    isCurrencyChar, isNumChar] <;> norm_num

/-- Witness for C3 (amended): a concrete markerless row is appended as a
purchase with its amount 7.50 added to the grand total only. -/
theorem unmarked_row_not_dropped_witness :
    processRow initState ⟨some " note ", some " £7.50 ", some " Gift "⟩ =
      { items := [⟨"Gift", 15 / 2, TxType.purchase⟩]
        total := 15 / 2
        salesTotal := 0
        purchasesTotal := 0
        currency := "£" } := by
  have h := unmarked_row_not_dropped initState ⟨some " note ", some " £7.50 ", some " Gift "⟩
    " note " " £7.50 " "£" "7.50" (15 / 2) rfl rfl (by decide) (by decide) (by decide)
    (by decide) (by decide)
    (by simp [parseFloatQ, replaceFirstComma, digitsVal] <;> norm_num)
  rw [h]
  simp [initState, itemNameOf, jsTrim]

/-- Witness for C4: a run with one euro-priced sale has currency "€", the
first (and only) non-empty captured symbol. -/
theorem currency_first_wins_witness :
    (MarketTotalResult.mk 3 3 0 "€" [⟨"ItemW", 3, TxType.sale⟩]).currency =
      firstNonEmpty (capturedSymbols (processedRows
        [⟨true, 200, ⟨some 1, some [⟨some "-", some "€3.00", some "ItemW"⟩]⟩⟩] 0 0)) :=
  currency_first_wins _ ⟨[0], 0⟩ _
    (by simp [calculateSteamMarketTotal, runLoop, processRow, priceMatch, priceScan,
      priceMatchAt, parseFloatQ, replaceFirstComma, digitsVal, jsTrim, jsIncludes,
      itemNameOf, round2, finalize, nextTotalCount, initState, initLog,
      isCurrencyChar, isNumChar] <;> norm_num)

/-- Witness for C5: Scenario B — `total_count = 510` over two good pages
yields fetch offsets `[0, 500]` and exactly one delay, between the two
fetches and not after the second. -/
theorem pagination_fetches_and_delays_witness :
    ∃ res, calculateSteamMarketTotal
        [⟨true, 200, ⟨some 510, some []⟩⟩, ⟨true, 200, ⟨some 999, some []⟩⟩] =
      ({ offsets := (List.range 2).map (fun t => t * 500), delays := 2 - 1 },
       RunResult.success res) :=
  pagination_fetches_and_delays 510 2 _ _ (by norm_num) (by norm_num) rfl
    (by norm_num) (by decide)

/-- Witness for C6: an HTTP 429 on the first fetch aborts the run at once
with the transport failure; the second page is never fetched. -/
theorem http_error_aborts_witness :
    runLoop [⟨false, 429, ⟨none, none⟩⟩, ⟨true, 200, ⟨some 1, some []⟩⟩] 0 0
        initState initLog =
      (⟨[0], 0⟩, RunResult.failure 429) := by
  have h := http_error_aborts ⟨false, 429, ⟨none, none⟩⟩
    [⟨true, 200, ⟨some 1, some []⟩⟩] 0 0 initState initLog rfl
  simpa [initLog] using h

/-- Witness for C7: a run with a single purchase of 2.50 returns sums that
are the once-rounded exact sums of the accepted row stream. -/
theorem sums_rounded_once_witness :
    (MarketTotalResult.mk (5 / 2) 0 (5 / 2) "¥" [⟨"ItemS", 5 / 2, TxType.purchase⟩]).total =
      round2 (grandOf (processedRows
        [⟨true, 200, ⟨some 1, some [⟨some "+", some "¥2.50", some "ItemS"⟩]⟩⟩] 0 0)) ∧
    (MarketTotalResult.mk (5 / 2) 0 (5 / 2) "¥" [⟨"ItemS", 5 / 2, TxType.purchase⟩]).sales =
      round2 (salesOf (processedRows
        [⟨true, 200, ⟨some 1, some [⟨some "+", some "¥2.50", some "ItemS"⟩]⟩⟩] 0 0)) ∧
    (MarketTotalResult.mk (5 / 2) 0 (5 / 2) "¥" [⟨"ItemS", 5 / 2, TxType.purchase⟩]).purchases =
      round2 (purchasesOf (processedRows
        [⟨true, 200, ⟨some 1, some [⟨some "+", some "¥2.50", some "ItemS"⟩]⟩⟩] 0 0)) :=
  sums_rounded_once _ ⟨[0], 0⟩ _
    (by simp [calculateSteamMarketTotal, runLoop, processRow, priceMatch, priceScan,
      priceMatchAt, parseFloatQ, replaceFirstComma, digitsVal, jsTrim, jsIncludes,
      itemNameOf, round2, finalize, nextTotalCount, initState, initLog,
      isCurrencyChar, isNumChar] <;> norm_num)

/-- C8 counterexample: with `total_count` absent, a fragmentless first page
makes the run return normally with zero records (no AuthenticationFailure),
and even a fragment-bearing first page ends the run right after page 1
(one fetch, offsets `[0]`) although a further page is available. -/
theorem missing_total_count_cex :
    calculateSteamMarketTotal [⟨true, 200, ⟨none, none⟩⟩] =
      ({ offsets := [0], delays := 0 }, RunResult.success ⟨0, 0, 0, "", []⟩) ∧
    calculateSteamMarketTotal
        [⟨true, 200, ⟨none, some [⟨some "+", some "£1.00", some "ItemZ"⟩]⟩⟩,
         ⟨true, 200, ⟨some 9, some []⟩⟩] =
      ({ offsets := [0], delays := 0 },
       RunResult.success ⟨1, 0, 1, "£", [⟨"ItemZ", 1, TxType.purchase⟩]⟩) := by
  constructor <;>
    simp [calculateSteamMarketTotal, runLoop, processRow, priceMatch, priceScan,
      priceMatchAt, parseFloatQ, replaceFirstComma, digitsVal, jsTrim, jsIncludes,
      itemNameOf, round2, finalize, nextTotalCount, initState, initLog,
      isCurrencyChar, isNumChar] <;> norm_num

/-- Witness for C8 (amended): first page lacks `total_count` but carries a
fragment with one purchase; the run returns right after page 1 with that
record, never touching the second (broken) page. -/
theorem missing_total_count_behavior_witness :
    calculateSteamMarketTotal
        [⟨true, 200, ⟨none, some [⟨some "+", some "¥3.00", some "W8"⟩]⟩⟩,
         ⟨false, 500, ⟨none, none⟩⟩] =
      ({ offsets := [0], delays := 0 },
       RunResult.success ⟨3, 0, 3, "¥", [⟨"W8", 3, TxType.purchase⟩]⟩) := by
  have h := missing_total_count_behavior
    ⟨true, 200, ⟨none, some [⟨some "+", some "¥3.00", some "W8"⟩]⟩⟩
    [⟨false, 500, ⟨none, none⟩⟩] rfl rfl
  rw [h]
  simp [processRow, priceMatch, priceScan, priceMatchAt, parseFloatQ,
    replaceFirstComma, digitsVal, jsTrim, jsIncludes, itemNameOf, round2, finalize,
    initState, isCurrencyChar, isNumChar] <;> norm_num

/-- Witness for C9: a row whose indicator "+(-)" holds both markers is
recorded as a sale of 9 added to the sales total only. -/
theorem both_markers_sale_witness :
    processRow initState ⟨some "+(-)", some "$9.00", none⟩ =
      { items := [⟨"Unknown Item", 9, TxType.sale⟩]
        total := 9
        salesTotal := 9
        purchasesTotal := 0
        currency := "$" } := by
  have h := both_markers_sale initState ⟨some "+(-)", some "$9.00", none⟩
    "+(-)" "$9.00" "$" "9.00" 9 rfl rfl (by decide) (by decide) (by decide) (by decide)
    (by decide)
    (by simp [parseFloatQ, replaceFirstComma, digitsVal] <;> norm_num)
  rw [h]
  simp [initState, itemNameOf, jsTrim]

/-- Witness for C10: a run whose only priced row has no currency symbol in
its price text returns normally with the empty currency. -/
theorem no_currency_empty_witness :
    (MarketTotalResult.mk 2 0 2 "" [⟨"Plain", 2, TxType.purchase⟩]).currency = "" :=
  no_currency_empty
    [⟨true, 200, ⟨some 1, some [⟨some "+", some "2.00", some "Plain"⟩]⟩⟩]
    ⟨[0], 0⟩ _
    (by simp [calculateSteamMarketTotal, runLoop, processRow, priceMatch, priceScan,
      priceMatchAt, parseFloatQ, replaceFirstComma, digitsVal, jsTrim, jsIncludes,
      itemNameOf, round2, finalize, nextTotalCount, initState, initLog,
      isCurrencyChar, isNumChar] <;> norm_num)
    (by decide)
